import Mathlib

/-!
# Verification of the zaza signal-backtesting and risk-analytics engine

Shallow embedding (over `ℚ`) of the core functions of
`src/zaza/tools/backtesting/{signals,simulation,risk}.py` and
`src/zaza/utils/models.py`, together with proofs and refutations of the
frozen specification claims.

Conventions of the embedding:
* Python/numpy floats are modelled as exact rationals.  `float('nan')`
  results are modelled explicitly (`Option` with `none` = NaN, or the
  `Val.nan` constructor below); comparisons against NaN are `false`, as in
  IEEE semantics.
* `round(x, d)` (Python round-half-to-even) is modelled exactly by
  `pyRound` below.
* Values of the form `a + b·√c` (Sharpe-like annualised ratios) cannot be
  represented as rationals; they are carried symbolically by the
  `Val.rsq a b c d` constructor, denoting `round(a + b*sqrt(c), d)`.
* Technical indicators produced by the third-party `ta`/`pandas` libraries
  (RSI, MACD, SMA, Bollinger bands) are not part of the repository source;
  they are modelled from the spec (§4.1) with the standard formulas, marked
  `Modelled from the spec:` in their doc comments.
-/

/-! ## Signal detection (`signals.py`) -/

/-! ### Prefix stability of every indicator: the value at bar `i` only reads
bars `0..i`, so truncating the series after bar `i` leaves it unchanged. -/

/-- Round-half-to-even of a rational to an integer (the rounding used by
Python's `round` builtin): the nearest integer, with ties going to the even
neighbour. -/
def roundHalfEven (x : ℚ) : ℤ :=
  if x - (⌊x⌋ : ℚ) < 1/2 then ⌊x⌋
  else if 1/2 < x - (⌊x⌋ : ℚ) then ⌊x⌋ + 1
  else if 2 ∣ ⌊x⌋ then ⌊x⌋ else ⌊x⌋ + 1

/-- `pyRound d x` models Python's `round(x, d)` on exact rationals:
round-half-to-even at `d` decimal places. -/
def pyRound (d : ℕ) (x : ℚ) : ℚ :=
  (roundHalfEven (x * 10 ^ d) : ℚ) / 10 ^ d

/-- `np.mean` over a list of rationals (callers of the model only apply it
to non-empty lists; numpy returns NaN on an empty array). -/
def lmean (l : List ℚ) : ℚ := l.sum / l.length

/-- Population variance (`np.std(l)**2`, `ddof=0`). -/
def varP (l : List ℚ) : ℚ := lmean (l.map (fun x => (x - lmean l) ^ 2))

/-- Sample variance (`np.std(l, ddof=1)**2`); `none` models the NaN numpy
produces when fewer than two observations exist. -/
def varS (l : List ℚ) : Option ℚ :=
  if l.length ≤ 1 then none
  else some ((l.map (fun x => (x - lmean l) ^ 2)).sum / (l.length - 1))

/-- `np.max` of a non-empty list (`0` for the empty list, which no call
site reaches unguarded). -/
def lmax : List ℚ → ℚ
  | [] => 0
  | x :: xs => xs.foldl max x

/-- `np.cumprod`: running products, same length as the input. -/
def cumprod (l : List ℚ) : List ℚ :=
  (l.foldl (fun acc x =>
    match acc with
    | [] => [x]
    | y :: ys => (y * x) :: y :: ys) []).reverse

/-- `np.maximum.accumulate`: running maxima, same length as the input. -/
def runningMax (l : List ℚ) : List ℚ :=
  (l.foldl (fun acc x =>
    match acc with
    | [] => [x]
    | y :: ys => (max y x) :: y :: ys) []).reverse

/-- One OHLCV bar of the input price series (§3 of the spec); the
timestamp plays no computational role and is omitted. -/
structure Bar where
  bopen : ℚ
  high : ℚ
  low : ℚ
  close : ℚ
  volume : ℚ
deriving DecidableEq, Repr

/-- `df["Close"].iloc[i]`; out-of-range reads (which no modelled code path
performs) default to `0`. -/
def closeAt (df : List Bar) (i : ℕ) : ℚ := ((df[i]?).map Bar.close).getD 0

/-- `df["Low"].iloc[i]`. -/
def lowAt (df : List Bar) (i : ℕ) : ℚ := ((df[i]?).map Bar.low).getD 0

/-- `df["Volume"].iloc[i]`. -/
def volAt (df : List Bar) (i : ℕ) : ℚ := ((df[i]?).map Bar.volume).getD 0

/-- Float `<` where `none` models NaN: any comparison with NaN is false. -/
def oLt (x y : Option ℚ) : Bool :=
  match x, y with
  | some a, some b => decide (a < b)
  | _, _ => false

/-- Float `≤` where `none` models NaN. -/
def oLe (x y : Option ℚ) : Bool :=
  match x, y with
  | some a, some b => decide (a ≤ b)
  | _, _ => false

/-- `SUPPORTED_SIGNALS` from `signals.py`. -/
def SUPPORTED_SIGNALS : List String :=
  ["rsi_below_30", "rsi_above_70", "macd_crossover", "golden_cross",
   "death_cross", "bollinger_lower_touch", "volume_spike"]

/-- Modelled from the spec: per-bar gain feeding the 14-period RSI,
`max(close[i] − close[i−1], 0)` (used for `i ≥ 1`). -/
def gainAt (df : List Bar) (i : ℕ) : ℚ := max (closeAt df i - closeAt df (i - 1)) 0

/-- Modelled from the spec: per-bar loss feeding the 14-period RSI. -/
def lossAt (df : List Bar) (i : ℕ) : ℚ := max (closeAt df (i - 1) - closeAt df i) 0

/-- Modelled from the spec: Wilder-smoothed (ewm, α = 1/14, `adjust=False`)
average gain up to bar `i`, the recursion used by `ta.momentum.RSIIndicator`. -/
def avgGain (df : List Bar) : ℕ → ℚ
  | 0 => 0
  | 1 => gainAt df 1
  | i + 2 => (13 * avgGain df (i + 1) + gainAt df (i + 2)) / 14

/-- Modelled from the spec: Wilder-smoothed average loss up to bar `i`. -/
def avgLoss (df : List Bar) : ℕ → ℚ
  | 0 => 0
  | 1 => lossAt df 1
  | i + 2 => (13 * avgLoss df (i + 1) + lossAt df (i + 2)) / 14

/-- Modelled from the spec: 14-period RSI at bar `i`.  `none` models the NaN
warm-up (`min_periods = 14`) and the 0/0 case of a fully flat window; a zero
average loss with positive average gain yields RSI = 100 in the float
pipeline (rs = ∞). -/
def rsiAt (df : List Bar) (i : ℕ) : Option ℚ :=
  if i < 14 then none
  else if avgLoss df i = 0 then (if avgGain df i = 0 then none else some 100)
  else some (100 - 100 / (1 + avgGain df i / avgLoss df i))

/-- Modelled from the spec: exponential moving average (`adjust=False`) with
smoothing factor `α`, the recursion `ema₀ = close₀`,
`emaᵢ₊₁ = (1−α)·emaᵢ + α·closeᵢ₊₁`. -/
def emaAt (α : ℚ) (df : List Bar) : ℕ → ℚ
  | 0 => closeAt df 0
  | i + 1 => (1 - α) * emaAt α df i + α * closeAt df (i + 1)

/-- Modelled from the spec: MACD(12,26) line, EMA₁₂ − EMA₂₆
(α = 2/(span+1)). -/
def macdAt (df : List Bar) (i : ℕ) : ℚ := emaAt (2/13) df i - emaAt (2/27) df i

/-- Modelled from the spec: MACD signal line, a 9-period EMA of the MACD
line started at bar 25 (the first non-NaN MACD value under
`min_periods = 26`). -/
def macdSignalAt (df : List Bar) : ℕ → ℚ
  | 0 => macdAt df 25
  | i + 1 =>
    if i + 1 ≤ 25 then macdAt df 25
    else (4/5) * macdSignalAt df i + (1/5) * macdAt df (i + 1)

/-- Modelled from the spec: MACD(12,26,9) histogram (`macd_diff`); `none`
models the NaN warm-up (the signal line needs 9 MACD observations from bar
25 on, so the histogram is NaN before bar 33). -/
def macdHistAt (df : List Bar) (i : ℕ) : Option ℚ :=
  if i < 33 then none else some (macdAt df i - macdSignalAt df i)

/-- Modelled from the spec: `w`-period simple moving average of the close
(`rolling(w).mean()`); `none` models the NaN warm-up. -/
def smaAt (w : ℕ) (df : List Bar) (i : ℕ) : Option ℚ :=
  if i + 1 < w then none
  else some (((List.range w).map (fun j => closeAt df (i - j))).sum / w)

/-- Modelled from the spec: trailing 20-bar mean of the close for the
Bollinger band. -/
def bollMean (df : List Bar) (i : ℕ) : ℚ :=
  ((List.range 20).map (fun j => closeAt df (i - j))).sum / 20

/-- Modelled from the spec: trailing 20-bar population variance of the close
(`rolling(20).std(ddof=0)` squared, as used by `ta.volatility.BollingerBands`). -/
def bollVar (df : List Bar) (i : ℕ) : ℚ :=
  ((List.range 20).map (fun j => (closeAt df (i - j) - bollMean df i) ^ 2)).sum / 20

/-- Modelled from the spec: the test `low[i] ≤ lower_band[i]` with
`lower_band = mean − 2·std` over the trailing 20 bars, encoded without
square roots via `low ≤ m − 2σ ↔ 0 ≤ m − low ∧ 4σ² ≤ (m − low)²`.
`false` during warm-up (NaN band, NaN comparison). -/
def bollTouchAt (df : List Bar) (i : ℕ) : Bool :=
  if i + 1 < 20 then false
  else decide (0 ≤ bollMean df i - lowAt df i ∧
    4 * bollVar df i ≤ (bollMean df i - lowAt df i) ^ 2)

/-- `vol.iloc[i − 20 : i].mean()`: trailing 20-bar average volume, over the
20 bars strictly before bar `i` (used for `i ≥ 20`). -/
def avgVolAt (df : List Bar) (i : ℕ) : ℚ :=
  ((List.range 20).map (fun j => volAt df (i - 1 - j))).sum / 20

/-- `_detect_signals` from `signals.py`: the list of bar indices where the
named signal fires.  Each branch mirrors the corresponding loop
`for i in range(start, len(df))` with its condition (including the
`np.isnan` guards, which the `Option` values make explicit); an unknown
signal name falls through every branch and yields `[]`. -/
def _detect_signals (df : List Bar) (signal : String) : List ℕ :=
  if signal = "rsi_below_30" then
    (List.range df.length).filter fun i =>
      decide (14 ≤ i) && oLt (rsiAt df i) (some 30)
  else if signal = "rsi_above_70" then
    (List.range df.length).filter fun i =>
      decide (14 ≤ i) && oLt (some 70) (rsiAt df i)
  else if signal = "macd_crossover" then
    (List.range df.length).filter fun i =>
      decide (27 ≤ i) && !(macdHistAt df i).isNone && !(macdHistAt df (i - 1)).isNone
        && oLt (some 0) (macdHistAt df i) && oLe (macdHistAt df (i - 1)) (some 0)
  else if signal = "golden_cross" then
    (List.range df.length).filter fun i =>
      decide (200 ≤ i) && !(smaAt 50 df i).isNone && !(smaAt 200 df i).isNone
        && oLt (smaAt 200 df i) (smaAt 50 df i)
        && oLe (smaAt 50 df (i - 1)) (smaAt 200 df (i - 1))
  else if signal = "death_cross" then
    (List.range df.length).filter fun i =>
      decide (200 ≤ i) && !(smaAt 50 df i).isNone && !(smaAt 200 df i).isNone
        && oLt (smaAt 50 df i) (smaAt 200 df i)
        && oLe (smaAt 200 df (i - 1)) (smaAt 50 df (i - 1))
  else if signal = "bollinger_lower_touch" then
    (List.range df.length).filter fun i =>
      decide (20 ≤ i) && bollTouchAt df i
  else if signal = "volume_spike" then
    (List.range df.length).filter fun i =>
      decide (20 ≤ i) && decide (0 < avgVolAt df i)
        && decide (2 * avgVolAt df i < volAt df i)
  else []

/-- The invalid-kind error of `get_signal_backtest` (`signals.py`): the
error payload names the rejected kind and the full list of valid kinds
(`f"Unsupported signal '{signal}'. Supported: {SUPPORTED_SIGNALS}"`). -/
structure InvalidSignalKind where
  kind : String
  supported : List String
deriving DecidableEq, Repr

/-- The pure decision core of `get_signal_backtest` (`signals.py`): the
kind is validated against `SUPPORTED_SIGNALS` before any detection runs; an
unknown kind fails fast with the `InvalidSignalKind` payload, a known kind
runs `_detect_signals`.  (Data fetching, caching and JSON serialisation are
I/O outside the engine and are not modelled.) -/
def get_signal_backtest_core (df : List Bar) (signal : String) :
    Except InvalidSignalKind (List ℕ) :=
  if signal ∈ SUPPORTED_SIGNALS then Except.ok (_detect_signals df signal)
  else Except.error ⟨signal, SUPPORTED_SIGNALS⟩

/-- The warm-up of each signal kind: the start of its detection loop in
`_detect_signals` (`for i in range(start, len(df))`). -/
def warmup (signal : String) : ℕ :=
  if signal = "rsi_below_30" then 14
  else if signal = "rsi_above_70" then 14
  else if signal = "macd_crossover" then 27
  else if signal = "golden_cross" then 200
  else if signal = "death_cross" then 200
  else if signal = "bollinger_lower_touch" then 20
  else if signal = "volume_spike" then 20
  else 0

/-- A flat bar with unit volume, for concrete test series. -/
def barFlat : Bar := ⟨1, 1, 1, 1, 1⟩

/-- A concrete 21-bar series whose last bar has a volume spike (volume 3
against a trailing average of 1); used to instantiate universally
quantified theorems at a firing input. -/
def dfSpike : List Bar := List.replicate 20 barFlat ++ [⟨1, 1, 1, 1, 3⟩]

/-- Exit reason of a completed trade (§3). -/
inductive ExitReason where
  | stop_loss
  | take_profit
  | signal
deriving DecidableEq, Repr

/-- A completed round-trip trade record emitted by `_simulate_trades`
(`simulation.py`); prices and pnl carry the source's output rounding
(`round(..., 2)` / `round(..., 4)`). -/
structure Trade where
  entry_idx : ℕ
  exit_idx : ℕ
  entry_price : ℚ
  exit_price : ℚ
  pnl_pct : ℚ
  exit_reason : ExitReason
  days_held : ℕ
deriving DecidableEq, Repr

/-- The loop state of `_simulate_trades`: trades emitted so far plus the
open-position variables (`in_trade`, `entry_price`, `entry_idx`). -/
structure SimState where
  trades : List Trade
  in_trade : Bool
  entry_price : ℚ
  entry_idx : ℕ
deriving Repr

/-- `pnl_pct = (current_price − entry_price) / entry_price * 100`. -/
def pnlPct (entry cur : ℚ) : ℚ := (cur - entry) / entry * 100

/-- The trade record appended when the position opened at `entry_idx` is
closed at bar `i` for reason `r` (`days_held = i − entry_idx`). -/
def mkTrade (entry_idx i : ℕ) (entry cur pnl : ℚ) (r : ExitReason) : Trade :=
  ⟨entry_idx, i, pyRound 2 entry, pyRound 2 cur, pyRound 4 pnl, r, i - entry_idx⟩

/-- `take_profit_pct is not None and pnl_pct >= take_profit_pct`. -/
def tpHit : Option ℚ → ℚ → Bool
  | none, _ => false
  | some t, p => decide (t ≤ p)

/-- One iteration of the `for i in range(len(df))` loop of
`_simulate_trades`: in a flat state an entry-set hit opens a position and
(`continue`) skips every exit check; with an open position the exit
conditions are checked in source order — stop loss, then take profit, then
exit signal — and the first hit appends a trade and returns to flat. -/
def simStep (df : List Bar) (entries : List ℕ) (exits : List ℕ) (sl : ℚ)
    (tp : Option ℚ) (s : SimState) (i : ℕ) : SimState :=
  if s.in_trade = false ∧ i ∈ entries then
    { s with in_trade := true, entry_price := closeAt df i, entry_idx := i }
  else if s.in_trade = true then
    if pnlPct s.entry_price (closeAt df i) ≤ -sl then
      { s with
        trades := s.trades ++ [mkTrade s.entry_idx i s.entry_price (closeAt df i)
          (pnlPct s.entry_price (closeAt df i)) ExitReason.stop_loss],
        in_trade := false }
    else if tpHit tp (pnlPct s.entry_price (closeAt df i)) then
      { s with
        trades := s.trades ++ [mkTrade s.entry_idx i s.entry_price (closeAt df i)
          (pnlPct s.entry_price (closeAt df i)) ExitReason.take_profit],
        in_trade := false }
    else if i ∈ exits then
      { s with
        trades := s.trades ++ [mkTrade s.entry_idx i s.entry_price (closeAt df i)
          (pnlPct s.entry_price (closeAt df i)) ExitReason.signal],
        in_trade := false }
    else s
  else s

/-- `_simulate_trades` from `simulation.py`: one forward pass over the
series; returns the completed trades only — a position still open after
the last bar leaves the final state `in_trade` but adds nothing to
`trades`. -/
def _simulate_trades (df : List Bar) (entries : List ℕ) (exits : List ℕ)
    (sl : ℚ) (tp : Option ℚ) : List Trade :=
  ((List.range df.length).foldl (simStep df entries exits sl tp)
    ⟨[], false, 0, 0⟩).trades

/-- Which exit check (in the source's fixed priority order) closed a trade:
the reason is `stop_loss` iff the stop-loss condition held at the exit bar,
`take_profit` iff it failed and the take-profit condition held, and
`signal` iff both failed and the exit set contained the bar. -/
def exitReasonCorrect (df : List Bar) (exits : List ℕ) (sl : ℚ)
    (tp : Option ℚ) (t : Trade) : Prop :=
  (t.exit_reason = ExitReason.stop_loss ↔
    pnlPct (closeAt df t.entry_idx) (closeAt df t.exit_idx) ≤ -sl) ∧
  (t.exit_reason = ExitReason.take_profit ↔
    (¬pnlPct (closeAt df t.entry_idx) (closeAt df t.exit_idx) ≤ -sl ∧
      tpHit tp (pnlPct (closeAt df t.entry_idx) (closeAt df t.exit_idx)) = true)) ∧
  (t.exit_reason = ExitReason.signal ↔
    (¬pnlPct (closeAt df t.entry_idx) (closeAt df t.exit_idx) ≤ -sl ∧
      ¬tpHit tp (pnlPct (closeAt df t.entry_idx) (closeAt df t.exit_idx)) = true ∧
      t.exit_idx ∈ exits))

/-- Loop invariant of `_simulate_trades` after the bars `0..k-1` have been
processed: every emitted trade is a strictly ordered round trip closed by
the exit check its reason names, trades are pairwise non-overlapping, and
an open position was entered at a bar already processed, at that bar's
close, after every emitted trade's exit. -/
def simMaster (df : List Bar) (exits : List ℕ) (sl : ℚ) (tp : Option ℚ)
    (k : ℕ) (s : SimState) : Prop :=
  (∀ t ∈ s.trades, t.entry_idx < t.exit_idx ∧ t.exit_idx < k ∧
    exitReasonCorrect df exits sl tp t) ∧
  s.trades.Pairwise (fun a b => a.exit_idx < b.entry_idx) ∧
  (s.in_trade = true → s.entry_idx < k ∧ s.entry_price = closeAt df s.entry_idx ∧
    ∀ t ∈ s.trades, t.exit_idx < s.entry_idx)

/-- A concrete two-bar falling series: entry at bar 0 (close 100), bar 1
(close 94) trips both the 5% stop loss and the exit signal. -/
def dfDown : List Bar := [⟨100, 100, 100, 100, 1⟩, ⟨94, 94, 94, 94, 1⟩]

/-- The single trade produced by simulating `dfDown` with entry set `{0}`,
exit set `{1}`, 5% stop loss and no take profit: entered at bar 0, closed
at bar 1 by the stop loss (which outranks the simultaneous exit signal). -/
def tDown : Trade :=
  mkTrade 0 1 (closeAt dfDown 0) (closeAt dfDown 1)
    (pnlPct (closeAt dfDown 0) (closeAt dfDown 1)) ExitReason.stop_loss

/-- A Python float-or-`None` value as the engine serialises it.
`rat q` is a float whose exact value is the rational `q` (inputs and
decimal roundings are exact); `rsq a b c d` denotes `round(a + b*sqrt(c), d)`,
the only irrational shape the code produces (annualisation by √252 and
square-root standard deviations); `nan` is `float('nan')`; `null` is
Python `None`. -/
inductive Val where
  | rat (q : ℚ)
  | rsq (a b c : ℚ) (d : ℕ)
  | nan
  | null
deriving DecidableEq, Repr

/-- `int(x)` of a nonnegative rational (truncation = floor).  The call
sites form `int(n * (1 - confidence))`, nonnegative for `confidence ≤ 1`
(the shipped confidences are 0.95/0.99); Python's negative indexing for
`confidence > 1` is outside the modelled domain. -/
def pyIdx (x : ℚ) : ℕ := (⌊x⌋).toNat

/-- `np.sort` (ascending). -/
def npSort (l : List ℚ) : List ℚ := List.insertionSort (· ≤ ·) l

/-- Biased central moment of order `k` (`scipy` moment with divisor `n`). -/
def cmoment (k : ℕ) (l : List ℚ) : ℚ := lmean (l.map (fun x => (x - lmean l) ^ k))

/-- The `{historical_var, parametric_var}` dict of `compute_var`
(`models.py`). -/
structure VarData where
  historical_var : ℚ
  parametric_var : Val
deriving DecidableEq, Repr

/-- `compute_var` from `models.py`: historical VaR is the sorted-ascending
empirical quantile at index `int(n*(1-confidence))` (`0.0` when the index
falls outside the array); parametric VaR is `mean − 1.645·std(ddof=0)`,
i.e. `round(mean + (−1.645)·√m₂, 6)` (NaN on an empty array, where numpy's
mean/std are NaN). -/
def compute_var (returns : List ℚ) (confidence : ℚ) : VarData :=
  ⟨pyRound 6 (if pyIdx ((returns.length : ℚ) * (1 - confidence)) < (npSort returns).length
      then (npSort returns).getD (pyIdx ((returns.length : ℚ) * (1 - confidence))) 0
      else 0),
   if returns.length = 0 then Val.nan
   else Val.rsq (lmean returns) (-(1645/1000)) (cmoment 2 returns) 6⟩

/-- `compute_cvar` from `models.py`: the mean of the sorted observations up
to and including the historical-VaR index (`0.0` for an empty tail). -/
def compute_cvar (returns : List ℚ) (confidence : ℚ) : ℚ :=
  if 0 < ((npSort returns).take (pyIdx ((returns.length : ℚ) * (1 - confidence)) + 1)).length
  then pyRound 6 (lmean ((npSort returns).take
    (pyIdx ((returns.length : ℚ) * (1 - confidence)) + 1)))
  else 0

/-- `_max_drawdown` from `models.py`: peak-to-trough decline of the
compounded cumulative product; `none` models the NaN produced when a
running peak is `0` — the division `(peak−cum)/peak` is then NaN, which
`np.max` propagates. -/
def _max_drawdown (returns : List ℚ) : Option ℚ :=
  if returns.length = 0 then some 0
  else if 0 ∈ runningMax (cumprod (returns.map (fun r => 1 + r))) then none
  else some (lmax (List.zipWith (fun p c => (p - c) / p)
    (runningMax (cumprod (returns.map (fun r => 1 + r))))
    (cumprod (returns.map (fun r => 1 + r)))))

/-- `compute_return_stats` from `models.py`, restricted to the fields the
risk-metrics result consumes (mean, std, skewness, kurtosis, max_drawdown).
The `jarque_bera_stat`/`jarque_bera_pvalue` fields are omitted from the
model: no claim and no risk-result field reads them, and the p-value (a χ²
tail probability) has no rational closed form.  `scipy.stats.skew` and
`scipy.stats.kurtosis` are the biased moment ratios `m₃/m₂^{3/2}` and
`m₄/m₂² − 3`, NaN when the population variance `m₂` is zero. -/
structure ReturnStats where
  mean : Val
  std : Val
  skewness : Val
  kurtosis : Val
  max_drawdown : Val
deriving DecidableEq, Repr

/-- `compute_return_stats` (see `ReturnStats`). -/
def compute_return_stats (returns : List ℚ) : ReturnStats :=
  { mean := if returns.length = 0 then Val.nan else Val.rat (pyRound 6 (lmean returns))
    std := match varS returns with
      | none => Val.nan
      | some v => Val.rsq 0 1 v 6
    skewness := if cmoment 2 returns = 0 then Val.nan
      else Val.rsq 0 (cmoment 3 returns / (cmoment 2 returns) ^ 2) (cmoment 2 returns) 4
    kurtosis := if cmoment 2 returns = 0 then Val.nan
      else Val.rat (pyRound 4 (cmoment 4 returns / (cmoment 2 returns) ^ 2 - 3))
    max_drawdown := match _max_drawdown returns with
      | none => Val.nan
      | some q => Val.rat (pyRound 4 q) }

/-- `returns[returns < 0]`: the negative observations. -/
def downside (returns : List ℚ) : List ℚ := returns.filter fun r => decide (r < 0)

/-- `np.std(downside, ddof=1)**2 if len(downside) > 1 else 0.0`: the
squared downside deviation used by the Sortino ratio (the length guard
keeps it a genuine float, never NaN). -/
def downsideStd2 (returns : List ℚ) : ℚ :=
  if 1 < (downside returns).length then
    ((downside returns).map (fun x => (x - lmean (downside returns)) ^ 2)).sum /
      ((downside returns).length - 1)
  else 0

/-- `r = returns[:min_len]`: the asset series aligned by keeping its
*first* `min(len)` observations (trimming the end). -/
def alignedA (returns bench : List ℚ) : List ℚ :=
  returns.take (min returns.length bench.length)

/-- `b = benchmark_returns[:min_len]`. -/
def alignedB (returns bench : List ℚ) : List ℚ :=
  bench.take (min returns.length bench.length)

/-- An entry of `np.cov(x, y)` (sample covariance, `ddof=1`); `none`
models the NaN numpy produces for fewer than two observations. -/
def covS (x y : List ℚ) : Option ℚ :=
  if x.length ≤ 1 then none
  else some ((List.zipWith (fun a b => (a - lmean x) * (b - lmean y)) x y).sum /
    (x.length - 1))

/-- The `beta` field of `_compute_risk_metrics` (`risk.py`):
`round(cov[0,1]/cov[1,1], 4) if cov[1,1] > 0 else None` over the
front-aligned series (a NaN covariance matrix — fewer than two aligned
observations — fails the `> 0` test and also yields `None`). -/
def betaVal (returns bench : List ℚ) : Val :=
  match covS (alignedB returns bench) (alignedB returns bench),
      covS (alignedA returns bench) (alignedB returns bench) with
  | some v, some c => if 0 < v then Val.rat (pyRound 4 (c / v)) else Val.null
  | _, _ => Val.null

/-- The `alpha` field of `_compute_risk_metrics` (`risk.py`): Jensen's
alpha `round((mean(r) − beta·mean(b))·252, 6)`, computed with the rounded
beta, only when beta is defined. -/
def alphaVal (returns bench : List ℚ) : Val :=
  match betaVal returns bench with
  | Val.rat b => Val.rat (pyRound 6
      ((lmean (alignedA returns bench) - b * lmean (alignedB returns bench)) * 252))
  | _ => Val.null

/-- The record returned by `_compute_risk_metrics` (`risk.py`). -/
structure RiskMetricsResult where
  sharpe_ratio : Val
  sortino_ratio : Val
  max_drawdown : Val
  beta : Val
  alpha : Val
  var_95 : VarData
  cvar_95 : ℚ
  annualized_return : Val
  annualized_volatility : Val
  skewness : Val
  kurtosis : Val
deriving DecidableEq, Repr

/-- `_compute_risk_metrics` from `risk.py`.  Sharpe: `mean/std·√252`
(`ddof=1`), `None` unless `std > 0` — represented as
`round((mean/v)·√(252·v), 4)` with `v` the sample variance, which equals
`round(mean/√v·√252, 4)`.  Sortino: the same with the downside deviation.
Annualised volatility `std·√252 = √(252·v)`. -/
def _compute_risk_metrics (returns bench : List ℚ) : RiskMetricsResult :=
  { sharpe_ratio := match varS returns with
      | some v => if 0 < v then Val.rsq 0 (lmean returns / v) (252 * v) 4 else Val.null
      | none => Val.null
    sortino_ratio := if 0 < downsideStd2 returns then
        Val.rsq 0 (lmean returns / downsideStd2 returns) (252 * downsideStd2 returns) 4
      else Val.null
    max_drawdown := ReturnStats.max_drawdown (compute_return_stats returns)
    beta := betaVal returns bench
    alpha := alphaVal returns bench
    var_95 := compute_var returns (95/100)
    cvar_95 := compute_cvar returns (95/100)
    annualized_return := if returns.length = 0 then Val.nan
      else Val.rat (pyRound 6 (lmean returns * 252))
    annualized_volatility := match varS returns with
      | some v => Val.rsq 0 1 (252 * v) 6
      | none => Val.nan
    skewness := ReturnStats.skewness (compute_return_stats returns)
    kurtosis := ReturnStats.kurtosis (compute_return_stats returns) }

/-- The serialised key/value pairs of a risk-metrics result (the nested
`var_95` dict flattened with dotted keys). -/
def RiskMetricsResult.fields (r : RiskMetricsResult) : List (String × Val) :=
  [("sharpe_ratio", RiskMetricsResult.sharpe_ratio r),
   ("sortino_ratio", RiskMetricsResult.sortino_ratio r),
   ("max_drawdown", RiskMetricsResult.max_drawdown r),
   ("beta", RiskMetricsResult.beta r),
   ("alpha", RiskMetricsResult.alpha r),
   ("var_95.historical_var", Val.rat (VarData.historical_var (RiskMetricsResult.var_95 r))),
   ("var_95.parametric_var", VarData.parametric_var (RiskMetricsResult.var_95 r)),
   ("cvar_95", Val.rat (RiskMetricsResult.cvar_95 r)),
   ("annualized_return", RiskMetricsResult.annualized_return r),
   ("annualized_volatility", RiskMetricsResult.annualized_volatility r),
   ("skewness", RiskMetricsResult.skewness r),
   ("kurtosis", RiskMetricsResult.kurtosis r)]

/-- The pure decision core of `get_risk_metrics` (`risk.py`): the boundary
reports insufficient data exactly when the *asset* return series has fewer
than 10 observations — the benchmark length is never examined.  (Price
fetching, the return derivation `pct_change().dropna()`, caching and JSON
serialisation are I/O outside the engine.) -/
def get_risk_metrics_core (returns bench : List ℚ) :
    Except String RiskMetricsResult :=
  if returns.length < 10 then
    Except.error "Insufficient data to compute risk metrics"
  else Except.ok (_compute_risk_metrics returns bench)

/-- Modelled from the spec (§4.5), for refinement comparison: alignment
keeping the *most recent* `n` observations of a series (trimming from the
front), as the spec prescribes. -/
def alignRecent (x : List ℚ) (n : ℕ) : List ℚ := x.drop (x.length - n)

/-- Modelled from the spec, for refinement comparison: the covariance
numerator Σ(aᵢ−ā)(bᵢ−b̄) (any consistent ddof normalisation cancels in the
beta ratio). -/
def specCov (a b : List ℚ) : ℚ :=
  (List.zipWith (fun x y => (x - lmean a) * (y - lmean b)) a b).sum

/-- Modelled from the spec, for refinement comparison: the variance
numerator Σ(bᵢ−b̄)². -/
def specVar (b : List ℚ) : ℚ := (b.map (fun y => (y - lmean b) ^ 2)).sum

/-- Modelled from the spec (§4.5), for refinement comparison: beta =
cov(asset,bench)/var(bench) over series aligned to the most recent
`min(len)` observations, `None` when var(bench) = 0. -/
def betaSpecRecent (returns bench : List ℚ) : Option ℚ :=
  if specVar (alignRecent bench (min returns.length bench.length)) = 0 then none
  else some (specCov (alignRecent returns (min returns.length bench.length))
      (alignRecent bench (min returns.length bench.length)) /
    specVar (alignRecent bench (min returns.length bench.length)))

/-- The spec's beta formula with the alignment direction corrected to the
code's: keep the *first* `min(len)` observations of each series. -/
def betaSpecFirst (returns bench : List ℚ) : Option ℚ :=
  if specVar (alignedB returns bench) = 0 then none
  else some (specCov (alignedA returns bench) (alignedB returns bench) /
    specVar (alignedB returns bench))

/-- A zero-variance return series accepted at the call boundary (ten
identical observations). -/
def flatReturns : List ℚ := List.replicate 10 (1/100)

/-- A ten-observation return series with two distinct values. -/
def mixedReturns : List ℚ :=
  [1/100, -(2/100), 15/1000, -(1/100), 2/100, 1/100, 1/100, 1/100, 1/100, 1/100]

/-- `pnls = [t["pnl_pct"] for t in trades]`. -/
def simPnls (trades : List Trade) : List ℚ := trades.map Trade.pnl_pct

/-- `wins = sum(1 for p in pnls if p > 0)`. -/
def simWins (trades : List Trade) : ℕ :=
  ((simPnls trades).filter fun p => decide (0 < p)).length

/-- The trade-indexed equity curve of `_compute_simulation_stats`: start at
`100.0`, append `last · (1 + p/100)` for each trade pnl. -/
def equityCurve (pnls : List ℚ) : List ℚ :=
  (pnls.foldl (fun acc p =>
    match acc with
    | [] => [100 * (1 + p / 100)]
    | e :: es => (e * (1 + p / 100)) :: e :: es) [100]).reverse

/-- The last element of a list (`equity[-1]`); `0` for the empty list,
which no call site reaches (the curve always starts at 100). -/
def llast : List ℚ → ℚ
  | [] => 0
  | [x] => x
  | _ :: x :: xs => llast (x :: xs)

/-- `max(drawdowns)` over `(peak − equity)/peak · 100`; the curve starts at
100, so every running peak is ≥ 100 and the division is a genuine float. -/
def simMaxDD (trades : List Trade) : ℚ :=
  lmax (List.zipWith (fun p e => (p - e) / p * 100)
    (runningMax (equityCurve (simPnls trades))) (equityCurve (simPnls trades)))

/-- The aggregator's Sharpe field: `None` unless there are at least two
pnls with positive (population) variance; otherwise
`round(mean/std·√(252/max(avg_days_held, 1)), 4)`, represented as
`round((mean/v)·√(v·tpy), 4)` with `v` the population variance. -/
def simSharpe (trades : List Trade) : Val :=
  if 1 < (simPnls trades).length ∧ 0 < varP (simPnls trades) then
    Val.rsq 0 (lmean (simPnls trades) / varP (simPnls trades))
      (varP (simPnls trades) *
        (252 / max (lmean (trades.map (fun t => (t.days_held : ℚ)))) 1)) 4
  else Val.null

/-- `(last_close − first_close)/first_close · 100`, from the full series
independent of the trades. -/
def buyHoldReturn (df : List Bar) : ℚ :=
  (closeAt df (df.length - 1) - closeAt df 0) / closeAt df 0 * 100

/-- `equity[-1] − 100.0`. -/
def strategyReturn (trades : List Trade) : ℚ :=
  llast (equityCurve (simPnls trades)) - 100

/-- `_compute_simulation_stats` from `simulation.py`, as the association
list of JSON keys it returns.  The zero-trade branch returns exactly the
six keys written in the source — `strategy_return_pct` and
`buy_hold_return_pct` are not among them. -/
def _compute_simulation_stats (trades : List Trade) (df : List Bar) :
    List (String × Val) :=
  if trades = [] then
    [("total_trades", Val.rat 0), ("win_rate", Val.null),
     ("avg_pnl_pct", Val.null), ("max_drawdown_pct", Val.null),
     ("sharpe_ratio", Val.null), ("vs_buy_and_hold", Val.null)]
  else
    [("total_trades", Val.rat (trades.length : ℚ)),
     ("win_rate", Val.rat (pyRound 4 ((simWins trades : ℚ) / (trades.length : ℚ)))),
     ("avg_pnl_pct", Val.rat (pyRound 4 (lmean (simPnls trades)))),
     ("max_drawdown_pct", Val.rat (pyRound 4 (simMaxDD trades))),
     ("sharpe_ratio", simSharpe trades),
     ("strategy_return_pct", Val.rat (pyRound 4 (strategyReturn trades))),
     ("buy_hold_return_pct", Val.rat (pyRound 4 (buyHoldReturn df))),
     ("vs_buy_and_hold", Val.rat (pyRound 4 (strategyReturn trades - buyHoldReturn df)))]

/-! ## Theorems -/

theorem roundHalfEven_mono {x y : ℚ} (h : x ≤ y) :
    roundHalfEven x ≤ roundHalfEven y := by
  unfold roundHalfEven
  have hf : (⌊x⌋ : ℤ) ≤ ⌊y⌋ := Int.floor_le_floor h
  by_cases hlt : ⌊x⌋ < ⌊y⌋
  · -- the result for `x` is at most `⌊x⌋ + 1 ≤ ⌊y⌋`, a lower bound for `y`'s
    split_ifs <;> omega
  · have heq : (⌊x⌋ : ℤ) = ⌊y⌋ := le_antisymm hf (not_lt.mp hlt)
    have heqq : ((⌊x⌋ : ℤ) : ℚ) = ((⌊y⌋ : ℤ) : ℚ) := by exact_mod_cast heq
    have hr : x - ((⌊x⌋ : ℤ) : ℚ) ≤ y - ((⌊y⌋ : ℤ) : ℚ) := by
      rw [heqq]; linarith
    split_ifs <;> first
      | omega
      | (exfalso; linarith)

theorem pyRound_mono (d : ℕ) {x y : ℚ} (h : x ≤ y) :
    pyRound d x ≤ pyRound d y := by
  unfold pyRound
  have hp : (0:ℚ) < 10 ^ d := by positivity
  have := roundHalfEven_mono (x := x * 10 ^ d) (y := y * 10 ^ d)
    (by nlinarith)
  have hc : ((roundHalfEven (x * 10 ^ d) : ℤ) : ℚ) ≤
      ((roundHalfEven (y * 10 ^ d) : ℤ) : ℚ) := by exact_mod_cast this
  exact div_le_div_of_nonneg_right hc hp.le |>.trans_eq rfl

theorem getElem?_take_of_lt {α : Type} (l : List α) {n i : ℕ} (h : i < n) :
    (l.take n)[i]? = l[i]? := by
  induction l generalizing n i with
  | nil => simp
  | cons a l ih =>
    cases n with
    | zero => omega
    | succ n =>
      cases i with
      | zero => simp
      | succ i => simpa using ih (Nat.lt_of_succ_lt_succ h)

theorem closeAt_take {df : List Bar} {n i : ℕ} (h : i < n) :
    closeAt (df.take n) i = closeAt df i := by
  unfold closeAt; rw [getElem?_take_of_lt df h]

theorem lowAt_take {df : List Bar} {n i : ℕ} (h : i < n) :
    lowAt (df.take n) i = lowAt df i := by
  unfold lowAt; rw [getElem?_take_of_lt df h]

theorem volAt_take {df : List Bar} {n i : ℕ} (h : i < n) :
    volAt (df.take n) i = volAt df i := by
  unfold volAt; rw [getElem?_take_of_lt df h]

theorem gainAt_take {df : List Bar} {n i : ℕ} (h : i < n) :
    gainAt (df.take n) i = gainAt df i := by
  unfold gainAt
  rw [closeAt_take h, closeAt_take (lt_of_le_of_lt (Nat.sub_le i 1) h)]

theorem lossAt_take {df : List Bar} {n i : ℕ} (h : i < n) :
    lossAt (df.take n) i = lossAt df i := by
  unfold lossAt
  rw [closeAt_take h, closeAt_take (lt_of_le_of_lt (Nat.sub_le i 1) h)]

theorem avgGain_take {df : List Bar} {n : ℕ} :
    ∀ {i : ℕ}, i < n → avgGain (df.take n) i = avgGain df i := by
  intro i
  induction i using Nat.strong_induction_on with
  | _ i ih =>
    intro h
    match i with
    | 0 => rfl
    | 1 => unfold avgGain; exact gainAt_take h
    | (j + 2) =>
      unfold avgGain
      rw [ih (j + 1) (by omega) (by omega), gainAt_take h]

theorem avgLoss_take {df : List Bar} {n : ℕ} :
    ∀ {i : ℕ}, i < n → avgLoss (df.take n) i = avgLoss df i := by
  intro i
  induction i using Nat.strong_induction_on with
  | _ i ih =>
    intro h
    match i with
    | 0 => rfl
    | 1 => unfold avgLoss; exact lossAt_take h
    | (j + 2) =>
      unfold avgLoss
      rw [ih (j + 1) (by omega) (by omega), lossAt_take h]

theorem rsiAt_take {df : List Bar} {n i : ℕ} (h : i < n) :
    rsiAt (df.take n) i = rsiAt df i := by
  unfold rsiAt
  rw [avgGain_take h, avgLoss_take h]

theorem emaAt_take {α : ℚ} {df : List Bar} {n : ℕ} :
    ∀ {i : ℕ}, i < n → emaAt α (df.take n) i = emaAt α df i := by
  intro i
  induction i with
  | zero =>
    intro h; unfold emaAt; exact closeAt_take h
  | succ j ih =>
    intro h
    unfold emaAt
    rw [ih (by omega), closeAt_take h]

theorem macdAt_take {df : List Bar} {n i : ℕ} (h : i < n) :
    macdAt (df.take n) i = macdAt df i := by
  unfold macdAt; rw [emaAt_take h, emaAt_take h]

theorem macdSignalAt_take {df : List Bar} {n : ℕ} (h25 : 25 < n) :
    ∀ {i : ℕ}, i < n → macdSignalAt (df.take n) i = macdSignalAt df i := by
  intro i
  induction i with
  | zero =>
    intro _; unfold macdSignalAt; exact macdAt_take h25
  | succ j ih =>
    intro h
    unfold macdSignalAt
    by_cases hj : j + 1 ≤ 25
    · simp only [hj, if_true]; exact macdAt_take h25
    · simp only [hj, if_false]
      rw [ih (by omega), macdAt_take h]

theorem macdHistAt_take {df : List Bar} {n i : ℕ} (h : i < n) :
    macdHistAt (df.take n) i = macdHistAt df i := by
  unfold macdHistAt
  by_cases h33 : i < 33
  · simp [h33]
  · simp only [h33, if_false]
    rw [macdAt_take h, macdSignalAt_take (by omega) h]

theorem smaAt_take {w : ℕ} {df : List Bar} {n i : ℕ} (h : i < n) :
    smaAt w (df.take n) i = smaAt w df i := by
  unfold smaAt
  have hm : List.map (fun j => closeAt (df.take n) (i - j)) (List.range w) =
      List.map (fun j => closeAt df (i - j)) (List.range w) :=
    List.map_congr_left fun j _ => closeAt_take (lt_of_le_of_lt (Nat.sub_le i j) h)
  rw [hm]

theorem bollMean_take {df : List Bar} {n i : ℕ} (h : i < n) :
    bollMean (df.take n) i = bollMean df i := by
  unfold bollMean
  have hm : List.map (fun j => closeAt (df.take n) (i - j)) (List.range 20) =
      List.map (fun j => closeAt df (i - j)) (List.range 20) :=
    List.map_congr_left fun j _ => closeAt_take (lt_of_le_of_lt (Nat.sub_le i j) h)
  rw [hm]

theorem bollVar_take {df : List Bar} {n i : ℕ} (h : i < n) :
    bollVar (df.take n) i = bollVar df i := by
  unfold bollVar
  have hm : List.map (fun j => (closeAt (df.take n) (i - j) - bollMean (df.take n) i) ^ 2)
        (List.range 20) =
      List.map (fun j => (closeAt df (i - j) - bollMean df i) ^ 2) (List.range 20) :=
    List.map_congr_left fun j _ => by
      rw [closeAt_take (lt_of_le_of_lt (Nat.sub_le i j) h), bollMean_take h]
  rw [hm]

theorem bollTouchAt_take {df : List Bar} {n i : ℕ} (h : i < n) :
    bollTouchAt (df.take n) i = bollTouchAt df i := by
  unfold bollTouchAt
  rw [bollMean_take h, bollVar_take h, lowAt_take h]

theorem avgVolAt_take {df : List Bar} {n i : ℕ} (h : i < n) :
    avgVolAt (df.take n) i = avgVolAt df i := by
  unfold avgVolAt
  have hm : List.map (fun j => volAt (df.take n) (i - 1 - j)) (List.range 20) =
      List.map (fun j => volAt df (i - 1 - j)) (List.range 20) :=
    List.map_congr_left fun j _ =>
      volAt_take (lt_of_le_of_lt ((Nat.sub_le (i - 1) j).trans (Nat.sub_le i 1)) h)
  rw [hm]

theorem mem_detect_take (df : List Bar) (signal : String) {n i : ℕ} (hi : i < n) :
    i ∈ _detect_signals (df.take n) signal ↔ i ∈ _detect_signals df signal := by
  have hlen : (df.take n).length = min n df.length := df.length_take n
  have hmem : i ∈ List.range (df.take n).length ↔ i ∈ List.range df.length := by
    rw [hlen]
    simp only [List.mem_range]
    omega
  have hi1 : i - 1 < n := lt_of_le_of_lt (Nat.sub_le i 1) hi
  unfold _detect_signals
  split_ifs <;>
    simp only [List.mem_filter, hmem, rsiAt_take hi, macdHistAt_take hi,
      macdHistAt_take hi1, smaAt_take hi, smaAt_take hi1, bollTouchAt_take hi,
      avgVolAt_take hi, volAt_take hi]

/-- C1: No-look-ahead.  For every supported signal kind, every price
series, and every index `i`, whether `i` qualifies under `_detect_signals`
on any prefix of the series containing bar `i` is the same as on the full
series: qualification at `i` is decided by bars `0..i` only. -/
theorem detect_no_lookahead (df : List Bar) (signal : String)
    (_hs : signal ∈ SUPPORTED_SIGNALS) {n i : ℕ} (hi : i < n) :
    (i ∈ _detect_signals (df.take n) signal ↔ i ∈ _detect_signals df signal) :=
  mem_detect_take df signal hi

/-- Witness for C1 at a concrete input: the volume spike fired at bar 20 is
the same on the 21-bar prefix as on the full series. -/
theorem detect_no_lookahead_witness :
    (20 ∈ _detect_signals ((dfSpike ++ [barFlat]).take 21) "volume_spike" ↔
      20 ∈ _detect_signals (dfSpike ++ [barFlat]) "volume_spike") :=
  detect_no_lookahead (dfSpike ++ [barFlat]) "volume_spike" (by decide) (by decide)

/-- C5: kind validation and warm-up behaviour of signal detection.  An
unknown kind fails fast with an `InvalidSignalKind` error that carries the
full list of valid kinds (it does not silently return an empty result); a
known kind on a series no longer than its warm-up returns an empty index
set without error. -/
theorem detect_kind_validation (df : List Bar) (signal : String) :
    (signal ∉ SUPPORTED_SIGNALS →
      get_signal_backtest_core df signal =
        Except.error ⟨signal, SUPPORTED_SIGNALS⟩) ∧
    (signal ∈ SUPPORTED_SIGNALS → df.length ≤ warmup signal →
      get_signal_backtest_core df signal = Except.ok []) := by
  constructor
  · intro hs
    unfold get_signal_backtest_core
    rw [if_neg hs]
  · intro hs hlen
    unfold get_signal_backtest_core
    rw [if_pos hs]
    have hnil : ∀ (s : ℕ) (p : ℕ → Bool), df.length ≤ s →
        (∀ i, p i = true → s ≤ i) → (List.range df.length).filter p = [] := by
      intro s p hls hp
      refine List.filter_eq_nil_iff.mpr ?_
      intro a ha hpa
      have h1 : a < df.length := List.mem_range.mp ha
      have h2 := hp a hpa
      omega
    simp only [SUPPORTED_SIGNALS, List.mem_cons, List.not_mem_nil, or_false] at hs
    rcases hs with rfl | rfl | rfl | rfl | rfl | rfl | rfl <;>
      simp only [warmup, if_pos rfl, if_neg, String.reduceEq, ite_true, ite_false] at hlen <;>
      simp only [_detect_signals, String.reduceEq, ite_true, ite_false] <;>
      refine congrArg Except.ok (hnil _ _ hlen ?_) <;>
      intro i hi <;>
      simp only [Bool.and_eq_true, decide_eq_true_eq] at hi <;>
      omega

/-- Witness for C5 at concrete inputs: an unknown kind errors with the
supported list in the payload, and a known kind on a too-short series
returns an empty index set. -/
theorem detect_kind_validation_witness :
    get_signal_backtest_core dfSpike "sma_cross" =
        Except.error ⟨"sma_cross", SUPPORTED_SIGNALS⟩ ∧
    get_signal_backtest_core [barFlat] "rsi_below_30" = Except.ok [] :=
  ⟨(detect_kind_validation dfSpike "sma_cross").1 (by decide),
   (detect_kind_validation [barFlat] "rsi_below_30").2 (by decide) (by decide)⟩

/-- C10: the volume-spike signal qualifies an index only if the trailing
20-bar average volume is strictly positive; with a zero trailing average no
signal fires there, regardless of the current bar's volume. -/
theorem volume_spike_needs_positive_avg (df : List Bar) (i : ℕ)
    (h : i ∈ _detect_signals df "volume_spike") : 0 < avgVolAt df i := by
  unfold _detect_signals at h
  simp only [String.reduceEq, ite_false, ite_true, if_pos rfl, if_neg] at h
  have hp := (List.mem_filter.mp h).2
  simp only [Bool.and_eq_true, decide_eq_true_eq] at hp
  exact hp.1.2

/-- Witness for C10: the spike at bar 20 of the concrete series has a
positive trailing average volume. -/
theorem volume_spike_needs_positive_avg_witness : 0 < avgVolAt dfSpike 20 :=
  volume_spike_needs_positive_avg dfSpike 20 (by
    unfold _detect_signals
    simp only [String.reduceEq, ite_false, ite_true, if_pos rfl, if_neg]
    refine List.mem_filter.mpr ⟨?_, ?_⟩
    · simp [dfSpike]
    · have havg : avgVolAt dfSpike 20 = 1 := by
        unfold avgVolAt
        norm_num [List.range_succ, volAt, dfSpike, barFlat, List.replicate]
      have hvol : volAt dfSpike 20 = 3 := by
        simp [volAt, dfSpike, barFlat, List.replicate]
      norm_num [havg, hvol])

theorem foldl_range_inv {σ : Type} {P : ℕ → σ → Prop} (step : σ → ℕ → σ)
    (hstep : ∀ k s, P k s → P (k + 1) (step s k)) :
    ∀ (n : ℕ) (s : σ), P 0 s → P n ((List.range n).foldl step s) := by
  intro n
  induction n with
  | zero => intro s h; simpa using h
  | succ n ih =>
    intro s h
    rw [List.range_succ, List.foldl_append, List.foldl_cons, List.foldl_nil]
    exact hstep n _ (ih s h)

theorem simStep_master (df : List Bar) (entries exits : List ℕ) (sl : ℚ)
    (tp : Option ℚ) (k : ℕ) (s : SimState)
    (h : simMaster df exits sl tp k s) :
    simMaster df exits sl tp (k + 1) (simStep df entries exits sl tp s k) := by
  obtain ⟨h1, h2, h3⟩ := h
  unfold simStep
  split_ifs with he hin hsl htp hsig
  · -- flat state, entry fires at bar k
    refine ⟨?_, h2, ?_⟩
    · intro t ht
      obtain ⟨ha, hb, hc⟩ := h1 t ht
      exact ⟨ha, by omega, hc⟩
    · intro _
      exact ⟨Nat.lt_succ_self k, rfl, fun t ht => (h1 t ht).2.1⟩
  · -- open position, stop loss hits at bar k
    obtain ⟨hidx, hprice, hexit⟩ := h3 hin
    rw [hprice] at hsl
    refine ⟨?_, ?_, ?_⟩
    · intro t ht
      rcases List.mem_append.mp ht with hl | hr
      · obtain ⟨ha, hb, hc⟩ := h1 t hl
        exact ⟨ha, by omega, hc⟩
      · rw [List.mem_singleton.mp hr]
        refine ⟨hidx, Nat.lt_succ_self k, ?_, ?_, ?_⟩
        · exact iff_of_true rfl hsl
        · exact iff_of_false (by simp [mkTrade]) (fun hc => hc.1 hsl)
        · exact iff_of_false (by simp [mkTrade]) (fun hc => hc.1 hsl)
    · refine List.pairwise_append.mpr ⟨h2, List.pairwise_singleton _ _, ?_⟩
      intro a ha b hb
      rw [List.mem_singleton.mp hb]
      exact hexit a ha
    · intro hff
      exact absurd hff (by simp)
  · -- open position, no stop loss, take profit hits at bar k
    obtain ⟨hidx, hprice, hexit⟩ := h3 hin
    rw [hprice] at hsl htp
    refine ⟨?_, ?_, ?_⟩
    · intro t ht
      rcases List.mem_append.mp ht with hl | hr
      · obtain ⟨ha, hb, hc⟩ := h1 t hl
        exact ⟨ha, by omega, hc⟩
      · rw [List.mem_singleton.mp hr]
        refine ⟨hidx, Nat.lt_succ_self k, ?_, ?_, ?_⟩
        · exact iff_of_false (by simp [mkTrade]) (fun hc => hsl hc)
        · exact iff_of_true rfl ⟨hsl, htp⟩
        · exact iff_of_false (by simp [mkTrade]) (fun hc => hc.2.1 htp)
    · refine List.pairwise_append.mpr ⟨h2, List.pairwise_singleton _ _, ?_⟩
      intro a ha b hb
      rw [List.mem_singleton.mp hb]
      exact hexit a ha
    · intro hff
      exact absurd hff (by simp)
  · -- open position, no stop loss, no take profit, exit signal at bar k
    obtain ⟨hidx, hprice, hexit⟩ := h3 hin
    rw [hprice] at hsl htp
    refine ⟨?_, ?_, ?_⟩
    · intro t ht
      rcases List.mem_append.mp ht with hl | hr
      · obtain ⟨ha, hb, hc⟩ := h1 t hl
        exact ⟨ha, by omega, hc⟩
      · rw [List.mem_singleton.mp hr]
        refine ⟨hidx, Nat.lt_succ_self k, ?_, ?_, ?_⟩
        · exact iff_of_false (by simp [mkTrade]) (fun hc => hsl hc)
        · exact iff_of_false (by simp [mkTrade]) (fun hc => htp hc.2)
        · exact iff_of_true rfl ⟨hsl, htp, hsig⟩
    · refine List.pairwise_append.mpr ⟨h2, List.pairwise_singleton _ _, ?_⟩
      intro a ha b hb
      rw [List.mem_singleton.mp hb]
      exact hexit a ha
    · intro hff
      exact absurd hff (by simp)
  · -- open position, no exit condition: state unchanged
    refine ⟨?_, h2, ?_⟩
    · intro t ht
      obtain ⟨ha, hb, hc⟩ := h1 t ht
      exact ⟨ha, by omega, hc⟩
    · intro hin'
      obtain ⟨hidx, hprice, hexit⟩ := h3 hin'
      exact ⟨by omega, hprice, hexit⟩
  · -- flat state, no entry: state unchanged
    refine ⟨?_, h2, ?_⟩
    · intro t ht
      obtain ⟨ha, hb, hc⟩ := h1 t ht
      exact ⟨ha, by omega, hc⟩
    · intro hin'
      obtain ⟨hidx, hprice, hexit⟩ := h3 hin'
      exact ⟨by omega, hprice, hexit⟩

theorem simulate_master (df : List Bar) (entries exits : List ℕ) (sl : ℚ)
    (tp : Option ℚ) :
    simMaster df exits sl tp df.length
      ((List.range df.length).foldl (simStep df entries exits sl tp)
        ⟨[], false, 0, 0⟩) := by
  refine foldl_range_inv _ (simStep_master df entries exits sl tp) _ _ ?_
  refine ⟨?_, List.Pairwise.nil, ?_⟩
  · intro t ht
    exact absurd ht (List.not_mem_nil t)
  · intro hff
    exact absurd hff (by simp)

theorem mem_simulate_dfDown : tDown ∈ _simulate_trades dfDown [0] [1] 5 none := by
  have hc0 : closeAt dfDown 0 = 100 := by simp [closeAt, dfDown]
  have hc1 : closeAt dfDown 1 = 94 := by simp [closeAt, dfDown]
  have hpnl : pnlPct (closeAt dfDown 0) (closeAt dfDown 1) = -6 := by
    rw [hc0, hc1]; norm_num [pnlPct]
  have h0 : simStep dfDown [0] [1] 5 none ⟨[], false, 0, 0⟩ 0 =
      ⟨[], true, closeAt dfDown 0, 0⟩ := by
    unfold simStep
    rw [if_pos ⟨rfl, List.mem_singleton.mpr rfl⟩]
  have h1 : simStep dfDown [0] [1] 5 none ⟨[], true, closeAt dfDown 0, 0⟩ 1 =
      ⟨[tDown], false, closeAt dfDown 0, 0⟩ := by
    unfold simStep
    rw [if_neg (by simp), if_pos rfl, if_pos (by rw [hpnl]; norm_num)]
    simp [tDown]
  unfold _simulate_trades
  rw [show dfDown.length = 2 from rfl, show List.range 2 = [0, 1] from rfl,
    List.foldl_cons, List.foldl_cons, List.foldl_nil, h0, h1]
  exact List.mem_singleton.mpr rfl

/-- C3: exit-priority determinism.  Every trade emitted by
`_simulate_trades` carries the exit reason of the first matching check in
the fixed source order stop loss → take profit → exit signal; in
particular a bar satisfying the stop-loss condition — even one that is
simultaneously in the exit-signal set — always yields
`exit_reason = stop_loss`. -/
theorem simulate_trades_exit_priority (df : List Bar) (entries exits : List ℕ)
    (sl : ℚ) (tp : Option ℚ) (t : Trade)
    (ht : t ∈ _simulate_trades df entries exits sl tp) :
    exitReasonCorrect df exits sl tp t ∧
    (pnlPct (closeAt df t.entry_idx) (closeAt df t.exit_idx) ≤ -sl →
      t.exit_reason = ExitReason.stop_loss) := by
  obtain ⟨h1, -, -⟩ := simulate_master df entries exits sl tp
  have hc := (h1 t ht).2.2
  exact ⟨hc, fun hp => hc.1.mpr hp⟩

/-- Witness for C3: on the concrete falling series, bar 1 satisfies both
the stop-loss condition and the exit signal, and the emitted trade's
reason is `stop_loss`. -/
theorem simulate_trades_exit_priority_witness :
    exitReasonCorrect dfDown [1] 5 none tDown ∧
    (pnlPct (closeAt dfDown tDown.entry_idx) (closeAt dfDown tDown.exit_idx) ≤ -5 →
      tDown.exit_reason = ExitReason.stop_loss) :=
  simulate_trades_exit_priority dfDown [0] [1] 5 none tDown mem_simulate_dfDown

/-- C4: trade-list well-formedness.  For every input, every emitted trade
satisfies `entry_idx < exit_idx` and closes strictly inside the series
(`exit_idx < len`, so a position still open at series end contributes no
record), and consecutive trades never overlap
(`exit_idx[k] < entry_idx[k+1]`). -/
theorem simulate_trades_wellformed (df : List Bar) (entries exits : List ℕ)
    (sl : ℚ) (tp : Option ℚ) :
    (∀ t ∈ _simulate_trades df entries exits sl tp,
      t.entry_idx < t.exit_idx ∧ t.exit_idx < df.length) ∧
    (_simulate_trades df entries exits sl tp).Chain'
      (fun a b => a.exit_idx < b.entry_idx) := by
  obtain ⟨h1, h2, -⟩ := simulate_master df entries exits sl tp
  exact ⟨fun t ht => ⟨(h1 t ht).1, (h1 t ht).2.1⟩, h2.chain'⟩

/-- Witness for C4: the concrete simulated trade has `entry_idx 0 <
exit_idx 1 < length 2`. -/
theorem simulate_trades_wellformed_witness :
    tDown.entry_idx < tDown.exit_idx ∧ tDown.exit_idx < dfDown.length :=
  (simulate_trades_wellformed dfDown [0] [1] 5 none).1 tDown mem_simulate_dfDown

/-- Counterexample for C6: with zero trades, `buy_hold_return_pct` is not
among the keys the aggregator returns (the claim asserts it is present even
with zero trades). -/
theorem stats_zero_trades_counterexample :
    "buy_hold_return_pct" ∉ (_compute_simulation_stats [] dfDown).map Prod.fst := by
  decide

/-- C6 (amended): with an empty trade list the aggregator returns exactly
`total_trades = 0` plus `win_rate`, `avg_pnl_pct`, `max_drawdown_pct`,
`sharpe_ratio` and `vs_buy_and_hold` as `None`; the keys
`strategy_return_pct` and `buy_hold_return_pct` are absent in that case.
Only when at least one trade exists is `buy_hold_return_pct` present,
computed from the series' first and last close independently of the
trades. -/
theorem stats_zero_trades_shape (trades : List Trade) (df : List Bar) :
    (trades = [] → _compute_simulation_stats trades df =
      [("total_trades", Val.rat 0), ("win_rate", Val.null),
       ("avg_pnl_pct", Val.null), ("max_drawdown_pct", Val.null),
       ("sharpe_ratio", Val.null), ("vs_buy_and_hold", Val.null)] ∧
      "buy_hold_return_pct" ∉ (_compute_simulation_stats trades df).map Prod.fst ∧
      "strategy_return_pct" ∉ (_compute_simulation_stats trades df).map Prod.fst) ∧
    (trades ≠ [] →
      ("buy_hold_return_pct", Val.rat (pyRound 4 (buyHoldReturn df))) ∈
        _compute_simulation_stats trades df) := by
  constructor
  · rintro rfl
    refine ⟨rfl, ?_, ?_⟩ <;>
      (unfold _compute_simulation_stats; rw [if_pos rfl]; decide)
  · intro hne
    unfold _compute_simulation_stats
    rw [if_neg hne]
    simp

/-- Witness for C6 at concrete inputs: the zero-trade result on the
two-bar series, and the presence of the buy-and-hold field once one trade
exists. -/
theorem stats_zero_trades_shape_witness :
    _compute_simulation_stats [] dfDown =
      [("total_trades", Val.rat 0), ("win_rate", Val.null),
       ("avg_pnl_pct", Val.null), ("max_drawdown_pct", Val.null),
       ("sharpe_ratio", Val.null), ("vs_buy_and_hold", Val.null)] ∧
    ("buy_hold_return_pct", Val.rat (pyRound 4 (buyHoldReturn dfDown))) ∈
      _compute_simulation_stats [tDown] dfDown :=
  ⟨((stats_zero_trades_shape [] dfDown).1 rfl).1,
   (stats_zero_trades_shape [tDown] dfDown).2 (by simp)⟩

/-- Counterexample for C9: ten asset observations against an *empty*
benchmark pass the boundary check (no `InsufficientData`), although the
number of overlapping asset/benchmark observations is 0 < 10 — the
boundary only counts the asset series. -/
theorem risk_boundary_overlap_counterexample :
    min flatReturns.length ([] : List ℚ).length < 10 ∧
    get_risk_metrics_core flatReturns [] =
      Except.ok (_compute_risk_metrics flatReturns []) := by
  refine ⟨by decide, ?_⟩
  unfold get_risk_metrics_core
  rw [if_neg (by decide)]

/-- C9 (amended): the calculator is total — the boundary reports
`InsufficientData` exactly when the *asset* return series has fewer than
10 observations (the benchmark/overlap length is never examined), and each
degenerate metric resolves to `None`: zero sample variance ⇒ Sharpe
`None`; at most one negative observation ⇒ Sortino `None`; fewer than two
aligned observations ⇒ beta and alpha `None`. -/
theorem risk_boundary_asset_length (returns bench : List ℚ) :
    (get_risk_metrics_core returns bench =
      Except.error "Insufficient data to compute risk metrics" ↔
      returns.length < 10) ∧
    (10 ≤ returns.length → get_risk_metrics_core returns bench =
      Except.ok (_compute_risk_metrics returns bench)) ∧
    (varS returns = some 0 →
      RiskMetricsResult.sharpe_ratio (_compute_risk_metrics returns bench) =
        Val.null) ∧
    ((downside returns).length ≤ 1 →
      RiskMetricsResult.sortino_ratio (_compute_risk_metrics returns bench) =
        Val.null) ∧
    (covS (alignedB returns bench) (alignedB returns bench) = none →
      RiskMetricsResult.beta (_compute_risk_metrics returns bench) = Val.null ∧
      RiskMetricsResult.alpha (_compute_risk_metrics returns bench) = Val.null) := by
  refine ⟨?_, ?_, ?_, ?_, ?_⟩
  · unfold get_risk_metrics_core
    split_ifs with h
    · simp [h]
    · simp [h]
  · intro h
    unfold get_risk_metrics_core
    rw [if_neg (by omega)]
  · intro hv
    simp [_compute_risk_metrics, hv]
  · intro hd
    simp [_compute_risk_metrics, downsideStd2, Nat.not_lt.mpr hd]
  · intro hc
    have hb : betaVal returns bench = Val.null := by
      unfold betaVal
      rw [hc]
    exact ⟨by simp [_compute_risk_metrics, hb],
      by simp [_compute_risk_metrics, alphaVal, hb]⟩

/-- Witness for C9: the ten-observation flat series passes the boundary
against an empty benchmark, and its zero variance degrades the Sharpe
ratio to `None`. -/
theorem risk_boundary_asset_length_witness :
    get_risk_metrics_core flatReturns [] =
      Except.ok (_compute_risk_metrics flatReturns []) ∧
    RiskMetricsResult.sharpe_ratio (_compute_risk_metrics flatReturns []) =
      Val.null :=
  ⟨(risk_boundary_asset_length flatReturns []).2.1 (by decide),
   (risk_boundary_asset_length flatReturns []).2.2.1 (by
     have hm : lmean (List.replicate 10 (1/100 : ℚ)) = 1/100 := by
       norm_num [lmean, List.sum_replicate]
     norm_num [varS, flatReturns, hm, List.map_replicate, List.sum_replicate])⟩

theorem roundHalfEven_intCast (n : ℤ) : roundHalfEven (n : ℚ) = n := by
  unfold roundHalfEven
  rw [Int.floor_intCast]
  rw [if_pos]
  rw [sub_self]
  norm_num

theorem pyRound_int (d : ℕ) (n : ℤ) : pyRound d ((n : ℚ)) = n := by
  unfold pyRound
  rw [show ((n : ℚ) * 10 ^ d) = (((n * 10 ^ d : ℤ)) : ℚ) by push_cast; ring,
    roundHalfEven_intCast]
  push_cast
  rw [mul_div_assoc, div_self (by positivity), mul_one]

theorem specVar_nonneg (b : List ℚ) : 0 ≤ specVar b := by
  unfold specVar
  apply List.sum_nonneg
  intro x hx
  obtain ⟨y, _, rfl⟩ := List.mem_map.mp hx
  positivity

theorem specVar_len_le_one {b : List ℚ} (h : b.length ≤ 1) : specVar b = 0 := by
  match b with
  | [] => rfl
  | [y] =>
    simp [specVar, lmean]
  | x :: y :: t => simp at h

/-- Counterexample for C2: on asset returns `[0, 0, 1]` and benchmark
`[1, 0]` the code's beta (front alignment, keeping `[0, 0]`) is `0`, while
the spec's most-recent alignment (keeping `[0, 1]`) yields `−1`. -/
theorem risk_beta_alignment_counterexample :
    RiskMetricsResult.beta (_compute_risk_metrics [0, 0, 1] [1, 0]) =
      Val.rat 0 ∧
    betaSpecRecent [0, 0, 1] [1, 0] = some (-1) ∧
    Val.rat (pyRound 4 (-1)) ≠ Val.rat 0 := by
  refine ⟨?_, ?_, ?_⟩
  · have ha : alignedA [0, 0, 1] [1, 0] = [0, 0] := by
      simp [alignedA]
    have hb : alignedB [0, 0, 1] [1, 0] = [1, 0] := by
      simp [alignedB]
    have hbb : covS [1, 0] [1, 0] = some (1/2) := by
      norm_num [covS, lmean]
    have hab : covS [0, 0] [1, 0] = some 0 := by
      norm_num [covS, lmean]
    have hz : pyRound 4 ((0 : ℚ)) = 0 := by
      rw [show ((0 : ℚ)) = ((0 : ℤ) : ℚ) by norm_num, pyRound_int]
    simp [_compute_risk_metrics, betaVal, ha, hb, hbb, hab, hz]
  · have h1 : alignRecent [0, 0, 1] (min ([0, 0, 1] : List ℚ).length
        ([1, 0] : List ℚ).length) = [0, 1] := by
      simp [alignRecent]
    have h2 : alignRecent [1, 0] (min ([0, 0, 1] : List ℚ).length
        ([1, 0] : List ℚ).length) = [1, 0] := by
      simp [alignRecent]
    unfold betaSpecRecent
    rw [h1, h2]
    norm_num [specVar, specCov, lmean]
  · rw [show ((-1 : ℚ)) = ((-1 : ℤ) : ℚ) by norm_num, pyRound_int]
    simp

/-- C2 (amended): the beta/alpha computation aligns the two series by
keeping the *first* `min(len)` observations of each (trimming from the
end, not the front); on that alignment beta is
`round(cov(asset,bench)/var(bench), 4)` — `None` when var(bench) = 0
(which subsumes the NaN covariance of fewer than two aligned
observations) — and alpha is `round((mean(asset) − beta·mean(bench))·252, 6)`
exactly when beta is defined, computed with the rounded beta. -/
theorem risk_beta_alpha_formula (returns bench : List ℚ) :
    RiskMetricsResult.beta (_compute_risk_metrics returns bench) =
      (match betaSpecFirst returns bench with
       | none => Val.null
       | some q => Val.rat (pyRound 4 q)) ∧
    RiskMetricsResult.alpha (_compute_risk_metrics returns bench) =
      (match betaSpecFirst returns bench with
       | none => Val.null
       | some q => Val.rat (pyRound 6
           ((lmean (alignedA returns bench) -
             pyRound 4 q * lmean (alignedB returns bench)) * 252))) := by
  have hbeta : betaVal returns bench =
      (match betaSpecFirst returns bench with
       | none => Val.null
       | some q => Val.rat (pyRound 4 q)) := by
    by_cases h2 : (alignedB returns bench).length ≤ 1
    · have hc : covS (alignedB returns bench) (alignedB returns bench) = none := by
        unfold covS; rw [if_pos h2]
      have hv : specVar (alignedB returns bench) = 0 := specVar_len_le_one h2
      unfold betaVal betaSpecFirst
      rw [hc, hv]
      simp
    · have hA : (alignedA returns bench).length = (alignedB returns bench).length := by
        simp only [alignedA, alignedB, List.length_take]
        omega
      have hd0 : (0:ℚ) < ((alignedB returns bench).length : ℚ) - 1 := by
        have h2n : 2 ≤ (alignedB returns bench).length := by omega
        have h2c : (2:ℚ) ≤ ((alignedB returns bench).length : ℚ) := by
          exact_mod_cast h2n
        linarith
      have hmap : List.map (fun a => (a - lmean (alignedB returns bench)) *
            (a - lmean (alignedB returns bench))) (alignedB returns bench) =
          List.map (fun y => (y - lmean (alignedB returns bench)) ^ 2)
            (alignedB returns bench) :=
        List.map_congr_left fun a _ => by ring
      have hbb : covS (alignedB returns bench) (alignedB returns bench) =
          some (specVar (alignedB returns bench) /
            (((alignedB returns bench).length : ℚ) - 1)) := by
        unfold covS specVar
        rw [if_neg h2, List.zipWith_same, hmap]
      have hab : covS (alignedA returns bench) (alignedB returns bench) =
          some (specCov (alignedA returns bench) (alignedB returns bench) /
            (((alignedB returns bench).length : ℚ) - 1)) := by
        unfold covS specCov
        rw [if_neg (by omega : ¬(alignedA returns bench).length ≤ 1), hA]
      unfold betaVal betaSpecFirst
      rw [hbb, hab]
      by_cases hV : specVar (alignedB returns bench) = 0
      · rw [if_pos hV]
        simp [hV]
      · rw [if_neg hV]
        have hVpos : 0 < specVar (alignedB returns bench) :=
          lt_of_le_of_ne (specVar_nonneg _) (Ne.symm hV)
        have hvpos : 0 < specVar (alignedB returns bench) /
            (((alignedB returns bench).length : ℚ) - 1) := div_pos hVpos hd0
        have hcv := div_div_div_cancel_right₀ (ne_of_gt hd0)
          (specCov (alignedA returns bench) (alignedB returns bench))
          (specVar (alignedB returns bench))
        simp [hvpos, hcv]
  refine ⟨by simpa [_compute_risk_metrics] using hbeta, ?_⟩
  rcases hsf : betaSpecFirst returns bench with _ | q
  · rw [hsf] at hbeta
    simp only [] at hbeta
    simp [_compute_risk_metrics, alphaVal, hbeta]
  · rw [hsf] at hbeta
    simp only [] at hbeta
    simp [_compute_risk_metrics, alphaVal, hbeta]

theorem betaVal_ne_nan (returns bench : List ℚ) : betaVal returns bench ≠ Val.nan := by
  unfold betaVal
  rcases covS (alignedB returns bench) (alignedB returns bench) with _ | v <;>
    rcases covS (alignedA returns bench) (alignedB returns bench) with _ | c <;>
    simp only [] <;> first
      | (split_ifs <;> simp)
      | simp

theorem alphaVal_ne_nan (returns bench : List ℚ) : alphaVal returns bench ≠ Val.nan := by
  unfold alphaVal
  cases betaVal returns bench <;> simp

theorem scanAcc_pos (op : ℚ → ℚ → ℚ)
    (hop : ∀ a b, 0 < a → 0 < b → 0 < op a b) :
    ∀ (l : List ℚ) (acc : List ℚ), (∀ z ∈ acc, 0 < z) → (∀ x ∈ l, 0 < x) →
      ∀ z ∈ l.foldl (fun acc x =>
        match acc with
        | [] => [x]
        | y :: ys => (op y x) :: y :: ys) acc, 0 < z := by
  intro l
  induction l with
  | nil => intro acc hacc _ z hz; exact hacc z hz
  | cons a l ih =>
    intro acc hacc hl z hz
    simp only [List.foldl_cons] at hz
    refine ih _ ?_ (fun x hx => hl x (List.mem_cons_of_mem _ hx)) z hz
    intro w hw
    have ha : 0 < a := hl a (List.mem_cons_self a l)
    cases acc with
    | nil =>
      rw [List.mem_singleton.mp hw]
      exact ha
    | cons y ys =>
      rcases List.mem_cons.mp hw with rfl | hw2
      · exact hop y a (hacc y (List.mem_cons_self y ys)) ha
      · exact hacc w hw2

/-- Counterexample for C7: the zero-variance ten-observation series is
accepted at the boundary, yet the `skewness` field of the risk result is
NaN (scipy's biased skew is 0/0 there), not an absent/None value. -/
theorem risk_skewness_nan_counterexample :
    10 ≤ flatReturns.length ∧
    ("skewness", Val.nan) ∈
      RiskMetricsResult.fields (_compute_risk_metrics flatReturns []) := by
  refine ⟨by decide, ?_⟩
  have hm : lmean (List.replicate 10 (1/100 : ℚ)) = 1/100 := by
    norm_num [lmean, List.sum_replicate]
  have hm2 : cmoment 2 flatReturns = 0 := by
    norm_num [cmoment, flatReturns, hm, List.map_replicate, List.sum_replicate, lmean]
  have hskew : ReturnStats.skewness (compute_return_stats flatReturns) = Val.nan := by
    simp [compute_return_stats, hm2]
  simp [RiskMetricsResult.fields, _compute_risk_metrics, hskew]

/-- C7 (amended): for every input accepted at the call boundary (at least
10 asset observations), every guarded metric — Sharpe, Sortino, beta,
alpha, both VaRs, CVaR, annualised return and volatility — is never NaN
(undefined cases are explicit `None`); but `skewness` and `kurtosis` are
NaN exactly for zero-variance input (scipy's biased moment ratios carry no
guard), and `max_drawdown` is NaN-free whenever every return exceeds −100%
(a compounded equity peak of 0 would divide by zero). -/
theorem risk_metrics_nan_policy (returns bench : List ℚ)
    (hlen : 10 ≤ returns.length) :
    RiskMetricsResult.sharpe_ratio (_compute_risk_metrics returns bench) ≠
      Val.nan ∧
    RiskMetricsResult.sortino_ratio (_compute_risk_metrics returns bench) ≠
      Val.nan ∧
    RiskMetricsResult.beta (_compute_risk_metrics returns bench) ≠ Val.nan ∧
    RiskMetricsResult.alpha (_compute_risk_metrics returns bench) ≠ Val.nan ∧
    VarData.parametric_var (RiskMetricsResult.var_95
      (_compute_risk_metrics returns bench)) ≠ Val.nan ∧
    RiskMetricsResult.annualized_return (_compute_risk_metrics returns bench) ≠
      Val.nan ∧
    RiskMetricsResult.annualized_volatility
      (_compute_risk_metrics returns bench) ≠ Val.nan ∧
    (RiskMetricsResult.skewness (_compute_risk_metrics returns bench) =
      Val.nan ↔ cmoment 2 returns = 0) ∧
    (RiskMetricsResult.kurtosis (_compute_risk_metrics returns bench) =
      Val.nan ↔ cmoment 2 returns = 0) ∧
    ((∀ r ∈ returns, -1 < r) →
      RiskMetricsResult.max_drawdown (_compute_risk_metrics returns bench) ≠
        Val.nan) := by
  have hne : returns.length ≠ 0 := by omega
  have hvs : varS returns =
      some ((returns.map (fun x => (x - lmean returns) ^ 2)).sum /
        ((returns.length : ℚ) - 1)) := by
    unfold varS
    rw [if_neg (by omega)]
  refine ⟨?_, ?_, betaVal_ne_nan returns bench, alphaVal_ne_nan returns bench,
    ?_, ?_, ?_, ?_, ?_, ?_⟩
  · simp only [_compute_risk_metrics, hvs]
    split_ifs <;> simp
  · simp only [_compute_risk_metrics]
    split_ifs <;> simp
  · simp [_compute_risk_metrics, compute_var, hne]
  · simp [_compute_risk_metrics, hne]
  · simp [_compute_risk_metrics, hvs]
  · by_cases hm : cmoment 2 returns = 0 <;>
      simp [_compute_risk_metrics, compute_return_stats, hm]
  · by_cases hm : cmoment 2 returns = 0 <;>
      simp [_compute_risk_metrics, compute_return_stats, hm]
  · intro hall
    have hpos : ∀ x ∈ returns.map (fun r => 1 + r), 0 < x := by
      intro x hx
      obtain ⟨r, hr, rfl⟩ := List.mem_map.mp hx
      have := hall r hr
      linarith
    have hcum : ∀ z ∈ cumprod (returns.map (fun r => 1 + r)), 0 < z := by
      intro z hz
      unfold cumprod at hz
      rw [List.mem_reverse] at hz
      exact scanAcc_pos (fun a b => a * b) (fun a b ha hb => mul_pos ha hb)
        (returns.map (fun r => 1 + r)) [] (by simp) hpos z hz
    have hrm : ∀ z ∈ runningMax (cumprod (returns.map (fun r => 1 + r))), 0 < z := by
      intro z hz
      unfold runningMax at hz
      rw [List.mem_reverse] at hz
      exact scanAcc_pos max (fun a b ha hb => lt_max_of_lt_left ha)
        (cumprod (returns.map (fun r => 1 + r))) [] (by simp) hcum z hz
    have h0 : (0 : ℚ) ∉ runningMax (cumprod (returns.map (fun r => 1 + r))) := by
      intro h
      exact absurd (hrm 0 h) (lt_irrefl 0)
    have hmd : _max_drawdown returns =
        some (lmax (List.zipWith (fun p c => (p - c) / p)
          (runningMax (cumprod (returns.map (fun r => 1 + r))))
          (cumprod (returns.map (fun r => 1 + r))))) := by
      unfold _max_drawdown
      rw [if_neg hne, if_neg h0]
    simp [_compute_risk_metrics, compute_return_stats, hmd]

/-- Witness for C7 at a concrete accepted input: on the ten-observation
mixed series no guarded field is NaN and the max drawdown is defined. -/
theorem risk_metrics_nan_policy_witness :
    RiskMetricsResult.sharpe_ratio (_compute_risk_metrics mixedReturns []) ≠
      Val.nan ∧
    RiskMetricsResult.max_drawdown (_compute_risk_metrics mixedReturns []) ≠
      Val.nan := by
  refine ⟨(risk_metrics_nan_policy mixedReturns [] (by decide)).1, ?_⟩
  refine (risk_metrics_nan_policy mixedReturns [] (by decide)).2.2.2.2.2.2.2.2.2 ?_
  intro r hr
  fin_cases hr <;> norm_num

theorem two_distinct_two_le_length {l : List ℚ} {a b : ℚ} (ha : a ∈ l)
    (hb : b ∈ l) (hab : a ≠ b) : 2 ≤ l.length := by
  match l with
  | [] => exact absurd ha (List.not_mem_nil a)
  | [x] =>
    rw [List.mem_singleton] at ha hb
    exact absurd (ha.trans hb.symm) hab
  | x :: y :: t =>
    simp only [List.length_cons]
    omega

/-- C8: VaR/CVaR ordering.  For every return series with at least two
distinct values and every confidence level in (0, 1], the CVaR — the mean
of the sorted observations up to and including the historical-VaR index —
is at most the historical VaR at that confidence. -/
theorem cvar_le_historical_var (returns : List ℚ) (confidence : ℚ)
    (hc0 : 0 < confidence) (hc1 : confidence ≤ 1)
    (hdist : ∃ a ∈ returns, ∃ b ∈ returns, a ≠ b) :
    compute_cvar returns confidence ≤
      VarData.historical_var (compute_var returns confidence) := by
  obtain ⟨a, ha, b, hb, hab⟩ := hdist
  have hn2 : 2 ≤ returns.length := two_distinct_two_le_length ha hb hab
  have hslen : (npSort returns).length = returns.length :=
    (List.perm_insertionSort _ _).length_eq
  have hsorted : List.Sorted (· ≤ ·) (npSort returns) :=
    List.sorted_insertionSort _ _
  have hidxlt : pyIdx ((returns.length : ℚ) * (1 - confidence)) < returns.length := by
    unfold pyIdx
    have hnpos : (0:ℚ) < (returns.length : ℚ) := by
      have h2c : (2:ℚ) ≤ (returns.length : ℚ) := by exact_mod_cast hn2
      linarith
    have h1 : ((returns.length : ℚ) * (1 - confidence)) < (returns.length : ℚ) := by
      nlinarith
    have h2 : ⌊(returns.length : ℚ) * (1 - confidence)⌋ < (returns.length : ℤ) :=
      Int.floor_lt.mpr (by exact_mod_cast h1)
    omega
  have hidxs : pyIdx ((returns.length : ℚ) * (1 - confidence)) <
      (npSort returns).length := by omega
  have htail_len : ((npSort returns).take
      (pyIdx ((returns.length : ℚ) * (1 - confidence)) + 1)).length =
      pyIdx ((returns.length : ℚ) * (1 - confidence)) + 1 := by
    rw [List.length_take]
    omega
  have hdropmem : (npSort returns)[pyIdx ((returns.length : ℚ) * (1 - confidence))] ∈
      (npSort returns).drop (pyIdx ((returns.length : ℚ) * (1 - confidence))) := by
    rw [List.drop_eq_getElem_cons hidxs]
    exact List.mem_cons_self _ _
  have hbound : ∀ x ∈ (npSort returns).take
      (pyIdx ((returns.length : ℚ) * (1 - confidence)) + 1),
      x ≤ (npSort returns)[pyIdx ((returns.length : ℚ) * (1 - confidence))] := by
    intro x hx
    rw [List.take_succ] at hx
    rcases List.mem_append.mp hx with h1 | h2
    · exact hsorted.rel_of_mem_take_of_mem_drop h1 hdropmem
    · rw [List.getElem?_eq_getElem hidxs] at h2
      simp only [Option.toList_some, List.mem_singleton] at h2
      rw [h2]
  have hmean : lmean ((npSort returns).take
      (pyIdx ((returns.length : ℚ) * (1 - confidence)) + 1)) ≤
      (npSort returns)[pyIdx ((returns.length : ℚ) * (1 - confidence))] := by
    unfold lmean
    rw [htail_len]
    rw [div_le_iff₀ (by positivity)]
    calc ((npSort returns).take
          (pyIdx ((returns.length : ℚ) * (1 - confidence)) + 1)).sum ≤
        ((npSort returns).take
          (pyIdx ((returns.length : ℚ) * (1 - confidence)) + 1)).length •
          (npSort returns)[pyIdx ((returns.length : ℚ) * (1 - confidence))] :=
        List.sum_le_card_nsmul _ _ hbound
      _ = _ := by
        rw [htail_len, nsmul_eq_mul]
        ring
  unfold compute_cvar compute_var
  simp only [VarData.historical_var]
  rw [if_pos (show 0 < ((npSort returns).take
      (pyIdx ((returns.length : ℚ) * (1 - confidence)) + 1)).length by
    rw [htail_len]; omega)]
  rw [if_pos hidxs, List.getD_eq_getElem _ _ hidxs]
  exact pyRound_mono 6 hmean

/-- Witness for C8: on the concrete ten-observation series at 95%
confidence, CVaR ≤ historical VaR. -/
theorem cvar_le_historical_var_witness :
    compute_cvar mixedReturns (95/100) ≤
      VarData.historical_var (compute_var mixedReturns (95/100)) :=
  cvar_le_historical_var mixedReturns (95/100) (by norm_num) (by norm_num)
    ⟨1/100, by simp [mixedReturns], -(2/100), by simp [mixedReturns], by norm_num⟩
